import Mathlib

/-!
A shallow embedding of the cfgbuild struct-population engine (the tag-driven
field-binding and coercion builder), together with theorems checking the
design specification's claims against it.

The embedding follows the builder source: strings are Lean `String`s
(which, at this toolchain, are wrappers around `List Char`, so everything
below evaluates inside the kernel), Go's machine integers are `Int` with
explicit width bounds, Go's floats are exact rationals with the exact
`math.MaxFloat32` / `math.MaxFloat64` bounds (parse rounding is not
modelled; no claim depends on it), and fallible steps return `Except` /
`Option`.  Runtime panics are an explicit `fault` constructor so that the
recovery boundary at the top of `Build` can be stated.
-/

namespace Cfgbuild

/-- Source constant DefaultTagKey. -/
def DefaultTagKey : String := "envvar"

/-- Source constant DefaultListSeparator. -/
def DefaultListSeparator : String := ","

/-- Source constant DefaultKeyValueSeparator. -/
def DefaultKeyValueSeparator : String := ":"

/-! ## String helpers (embeddings of the `strings` package functions used) -/

/-- Whitespace test backing the embedding of strings.TrimSpace (ASCII
whitespace; Go also trims rarer Unicode spaces, which never occur here). -/
def isSpc (c : Char) : Bool :=
  c == ' ' || c == '\t' || c == '\n' || c == '\r' || c == '\x0b' || c == '\x0c'

/-- Embedding of strings.TrimSpace: drop whitespace from both ends. -/
def trimSpace (s : String) : String :=
  String.mk ((((s.data.dropWhile isSpc).reverse.dropWhile isSpc)).reverse)

/-- Core of the embedding of strings.Split for a non-empty separator: walk
the characters, emitting a chunk at each leftmost non-overlapping separator
match.  The `Nat` argument is recursion fuel; every caller passes more fuel
than there are characters, which is always enough since each step consumes
at least one character. -/
def splitOnAuxL (sep : List Char) : Nat → List Char → List Char → List (List Char)
  | 0, rest, acc => [acc.reverse ++ rest]
  | _ + 1, [], acc => [acc.reverse]
  | n + 1, c :: rest, acc =>
    if sep.isPrefixOf (c :: rest) then
      acc.reverse :: splitOnAuxL sep n (rest.drop (sep.length - 1)) []
    else
      splitOnAuxL sep n rest (c :: acc)

/-- Embedding of strings.Split.  Every call site in the source reaches it
with a non-empty separator (the empty separator is defaulted beforehand);
Go's per-rune behaviour for an empty separator is therefore not modelled. -/
def strSplit (s sep : String) : List String :=
  if sep = "" then [s]
  else (splitOnAuxL sep.data (s.data.length + 1) s.data []).map String.mk

/-- Embedding of strings.Contains. -/
def containsL (sub : List Char) : List Char → Bool
  | [] => sub.isEmpty
  | c :: rest => sub.isPrefixOf (c :: rest) || containsL sub rest

/-- Embedding of strings.Contains on strings. -/
def containsStr (s sub : String) : Bool := containsL sub.data s.data

/-- Embedding of strings.ToUpper (ASCII: the only comparisons made are
against "TRUE" and "FALSE"). -/
def toUpperStr (s : String) : String := String.mk (s.data.map Char.toUpper)

/-- Rendering of Go's %q for the plain identifiers that appear in the
builder's messages (none of them need escaping). -/
def quoted (s : String) : String := "\"" ++ s ++ "\""

/-- Embedding of strings.Join with separator ",". -/
def joinComma : List String → String
  | [] => ""
  | [s] => s
  | s :: rest => s ++ "," ++ joinComma rest

/-! ## Number parsing (embedding of the `strconv` calls) -/

/-- The two strconv error kinds the builder can surface, with the function
name and literal needed to render Go's error text. -/
inductive NumErr where
  | invalidSyntax (fn lit : String)
  | outOfRange (fn lit : String)
deriving DecidableEq

/-- Rendering of a strconv error's Error() text. -/
def NumErr.msg : NumErr → String
  | .invalidSyntax fn lit => "strconv." ++ fn ++ ": parsing " ++ quoted lit ++ ": invalid syntax"
  | .outOfRange fn lit => "strconv." ++ fn ++ ": parsing " ++ quoted lit ++ ": value out of range"

/-- Integer power by repeated squaring, structurally recursive on a fuel
bound (avoids both the generic monoid power and deep unary recursion,
keeping everything kernel-reducible at shallow depth). -/
def ipowAux : Nat → Int → Nat → Int
  | 0, _, _ => 1
  | _ + 1, _, 0 => 1
  | fuel + 1, b, n + 1 =>
    let h := ipowAux fuel (b * b) ((n + 1) / 2)
    if (n + 1) % 2 == 0 then h else b * h

/-- Integer power. -/
def ipow (b : Int) (n : Nat) : Int := ipowAux n b n

/-- Decimal digit value. -/
def digitVal (c : Char) : Nat := c.toNat - 48

/-- Decimal digits to a natural number. -/
def digitsToNat (l : List Char) : Nat := l.foldl (fun n c => 10 * n + digitVal c) 0

/-- Non-empty and all decimal digits. -/
def allDigits (l : List Char) : Bool := !l.isEmpty && l.all Char.isDigit

/-- The decimal integer syntax accepted by strconv.ParseInt: optional sign
followed by at least one digit. -/
def readInt : List Char → Option Int
  | '-' :: ds => if allDigits ds then some (-(digitsToNat ds : Int)) else none
  | '+' :: ds => if allDigits ds then some (digitsToNat ds : Int) else none
  | ds => if allDigits ds then some (digitsToNat ds : Int) else none

/-- Embedding of strconv.ParseInt(s, 10, bitSize): decimal syntax plus the
signed range check at the requested width. -/
def goParseInt (s : String) (bitSize : Nat) : Except NumErr Int :=
  match readInt s.data with
  | none => .error (.invalidSyntax "ParseInt" s)
  | some v =>
    if v < -(ipow 2 (bitSize - 1)) || v > ipow 2 (bitSize - 1) - 1 then
      .error (.outOfRange "ParseInt" s)
    else .ok v

/-- Embedding of strconv.ParseUint(s, 10, bitSize): digits only (no sign),
plus the unsigned range check at the requested width. -/
def goParseUint (s : String) (bitSize : Nat) : Except NumErr Int :=
  if allDigits s.data then
    if (digitsToNat s.data : Int) > ipow 2 bitSize - 1 then .error (.outOfRange "ParseUint" s)
    else .ok (digitsToNat s.data : Int)
  else .error (.invalidSyntax "ParseUint" s)

/-- The float widths. -/
inductive FloatW where
  | f32
  | f64
deriving DecidableEq

/-- An exact decimal value, `num / 10 ^ e`.  Decimal float literals are
represented exactly (rather than rounded to a binary float); the
representation is not normalised, which no claim needs. -/
structure Dec10 where
  num : Int
  e : Nat
deriving DecidableEq

/-- Exact values of math.MaxFloat32 and math.MaxFloat64 as integers. -/
def maxFloatZ : FloatW → Int
  | .f32 => (ipow 2 24 - 1) * ipow 2 104
  | .f64 => (ipow 2 53 - 1) * ipow 2 971

/-- Whether the exact decimal value exceeds the width's largest finite
float in magnitude: compare `|num| / 10^e` with the bound by
cross-multiplication. -/
def dec10Over (w : FloatW) (d : Dec10) : Bool :=
  (d.num.natAbs : Int) > maxFloatZ w * ipow 10 d.e

/-- Strip an optional leading sign; true means negative. -/
def stripSign : List Char → Bool × List Char
  | '-' :: ds => (true, ds)
  | '+' :: ds => (false, ds)
  | ds => (false, ds)

/-- Mantissa of a decimal float literal: digits with an optional single
dot, at least one digit overall. -/
def readMantissa (l : List Char) : Option Dec10 :=
  match l.splitOn '.' with
  | [ip] => if allDigits ip then some ⟨(digitsToNat ip : Int), 0⟩ else none
  | [ip, fp] =>
    if ip.all Char.isDigit && fp.all Char.isDigit && !(ip.isEmpty && fp.isEmpty) then
      some ⟨(digitsToNat (ip ++ fp) : Int), fp.length⟩
    else none
  | _ => none

/-- Apply a base-ten exponent to an exact decimal value. -/
def applyExp10 (d : Dec10) (eneg : Bool) (e : Nat) : Dec10 :=
  if eneg then ⟨d.num, d.e + e⟩ else ⟨d.num * ipow 10 e, d.e⟩

/-- The decimal float syntax accepted by strconv.ParseFloat: optional
sign, mantissa, optional e/E exponent (special forms such as Inf, NaN and
hex floats are not modelled). -/
def readFloat (l : List Char) : Option Dec10 :=
  let (neg, l) := stripSign l
  let signed : Dec10 → Dec10 := fun d => if neg then ⟨-d.num, d.e⟩ else d
  match (l.map fun c => if c == 'E' then 'e' else c).splitOn 'e' with
  | [m] => (readMantissa m).map signed
  | [m, ex] =>
    match readMantissa m with
    | none => none
    | some d =>
      let (eneg, eds) := stripSign ex
      if allDigits eds then some (signed (applyExp10 d eneg (digitsToNat eds)))
      else none
  | _ => none

/-- Embedding of strconv.ParseFloat(s, bitSize): decimal syntax plus the
range check at the requested width (Go returns an infinity together with a
range error; only the error is observable in the builder). -/
def goParseFloat (s : String) (w : FloatW) : Except NumErr Dec10 :=
  match readFloat s.data with
  | none => .error (.invalidSyntax "ParseFloat" s)
  | some d =>
    if dec10Over w d then .error (.outOfRange "ParseFloat" s)
    else .ok d

/-! ## Tag parsing (embedding of the tag helpers) -/

/-- The closed attribute enumeration (source type tagAttr). -/
inductive TagAttr where
  | aDefault
  | aPfx
  | aRequired
  | aUnmarshalJSON
deriving DecidableEq

/-- The attribute's name (source constants tagAttrDefault, tagAttrPrefix,
tagAttrRequired, tagAttrUnmarshalJSON). -/
def TagAttr.str : TagAttr → String
  | .aDefault => "default"
  | .aPfx => "prefix"
  | .aRequired => "required"
  | .aUnmarshalJSON => "unmarshalJSON"

/-- Source variable allTagAttr, in its order. -/
def allTagAttr : List TagAttr := [.aDefault, .aPfx, .aRequired, .aUnmarshalJSON]

/-- Embedding of tagAttr.hasValue. -/
def TagAttr.hasValue : TagAttr → Bool
  | .aDefault => true
  | .aPfx => true
  | .aRequired => false
  | .aUnmarshalJSON => false

/-- Embedding of getTagEnvVarName: the tag text before the first comma. -/
def getTagEnvVarName (tagVal : String) : String :=
  (strSplit tagVal ",").headD ""

/-- Embedding of getTagAttribute.  It scans every comma segment — including
the first one, which holds the key — for the attribute name, bare or with
"=value".  Go returns a (value, found) pair; here `none` is not-found and
`some v` is found with value `v` (possibly ""). -/
def getTagAttribute (tagVal : String) (a : TagAttr) : Option String :=
  let p := a.str ++ "="
  (strSplit tagVal ",").findSome? fun seg =>
    if seg = a.str then some ""
    else if p.data.isPrefixOf seg.data then some (String.mk (seg.data.drop p.data.length))
    else none

/-- Embedding of getTagAttributeNames: for every comma segment after the
first, the part before the first "=". -/
def getTagAttributeNames (tagValue : String) : List String :=
  ((strSplit tagValue ",").drop 1).map fun a => (strSplit a "=").headD ""

/-! ## Data model -/

/-- The integer widths of the scalar integer kinds.  Go's `int` and `uint`
are 64-bit here (bits.UintSize = 64 on the supported platforms). -/
inductive IntW where
  | w8
  | w16
  | w32
  | w64
deriving DecidableEq

/-- Width in bits. -/
def IntW.bits : IntW → Nat
  | .w8 => 8
  | .w16 => 16
  | .w32 => 32
  | .w64 => 64

/-- The pointer-to-scalar table of setFieldValue's reflect.Pointer case
(the source switches on v.Type().String()).  *time.Duration is omitted and
the silent no-op for unlisted pointee types is not modelled; no claim
quantifies over either. -/
inductive PtrTy where
  | pInt (signed : Bool) (w : IntW)
  | pFloat (w : FloatW)
  | pString
  | pBool
deriving DecidableEq

/-- The scalar field kinds the claims quantify over.  The source's
dispatch also covers time.Time, time.Duration, numeric slices, []byte and
map[string]string; no claim quantifies over those, so they are left out of
the embedding. -/
inductive Ty where
  | tBool
  | tString
  | tStringList
  | tInt (signed : Bool) (w : IntW)
  | tFloat (w : FloatW)
  | tPtr (p : PtrTy)
deriving DecidableEq

/-- A struct field as the builder sees it: Go field name, visibility
(the source's isPublicField), whether a trial json.Unmarshal of an empty
object into the field succeeds (jsonOK, the probe of the unmarshalJSON
rule), the tag value looked up under the active tag key (`none` when the
tag is absent), and the field's type — a scalar kind or a nested config
struct (by value or behind a pointer). -/
inductive FieldSpec where
  | plain (name : String) (isPublic jsonOK : Bool) (tag : Option String) (ty : Ty)
  | nested (name : String) (isPublic jsonOK : Bool) (tag : Option String)
      (isPtr : Bool) (sub : List FieldSpec)

/-- Field name. -/
def FieldSpec.name : FieldSpec → String
  | .plain n _ _ _ _ => n
  | .nested n _ _ _ _ _ => n

/-- Field visibility (the source's isPublicField result). -/
def FieldSpec.isPublic : FieldSpec → Bool
  | .plain _ p _ _ _ => p
  | .nested _ p _ _ _ _ => p

/-- Whether the trial decode of an empty json object into the field
succeeds. -/
def FieldSpec.jsonOK : FieldSpec → Bool
  | .plain _ _ j _ _ => j
  | .nested _ _ j _ _ _ => j

/-- The field's tag value under the active tag key, when present. -/
def FieldSpec.tag : FieldSpec → Option String
  | .plain _ _ _ t _ => t
  | .nested _ _ _ t _ _ => t

/-- A runtime field value. -/
inductive Val where
  | vInt (i : Int)
  | vFloat (d : Dec10)
  | vBool (b : Bool)
  | vString (s : String)
  | vStringList (l : List String)
  | vPtr (p : Option Val)
  | vStruct (l : List Val)

/-- Zero value of a scalar kind. -/
def zeroOf : Ty → Val
  | .tBool => .vBool false
  | .tString => .vString ""
  | .tStringList => .vStringList []
  | .tInt _ _ => .vInt 0
  | .tFloat _ => .vFloat ⟨0, 0⟩
  | .tPtr _ => .vPtr none

mutual

/-- Zero value of a field (reflect.New semantics: nested value structs
recursively zero, nested pointers nil). -/
def zeroField : FieldSpec → Val
  | .plain _ _ _ _ ty => zeroOf ty
  | .nested _ _ _ _ isPtr sub => if isPtr then .vPtr none else .vStruct (zeroFields sub)

/-- Zero values of a field list. -/
def zeroFields : List FieldSpec → List Val
  | [] => []
  | f :: fs => zeroField f :: zeroFields fs

end

/-! ## Builder options and coercion -/

/-- The builder configuration (source type Builder), without the debug
printing plumbing.  `pfx` is the source's private `prefix` field.
`jsonDec` stands for the external json.Unmarshal collaborator used by the
unmarshalJSON tag attribute: it receives the raw string and the current
field value and yields the decoded value; its behaviour is opaque to every
claim.  `prefixFallback` — Modelled from the spec: the PrefixFallback
option appears in the README's option table and in the test suite, but the
builder source here performs only the prefixed lookup, so the option and
its fallback retry are modelled from the spec sentence "if
prefixFallbackEnabled and the prefixed lookup misses, retry with the bare
key"; with `prefixFallback = false` the lookup below is exactly the
source's. -/
structure Options where
  listSep : String
  tagKey : String
  pfx : String
  throwPanics : Bool
  prefixFallback : Bool
  jsonDec : String → Val → Except String Val

/-- Embedding of getTagKey. -/
def Options.effTagKey (b : Options) : String :=
  if b.tagKey = "" then DefaultTagKey else b.tagKey

/-- Embedding of the source helper split: default the separator to ",",
split, trim each element. -/
def split (s sep : String) : List String :=
  let sep := if sep = "" then DefaultListSeparator else sep
  (strSplit s sep).map trimSpace

/-- Signed minimum of a width. -/
def intMin (w : IntW) : Int := -(ipow 2 (w.bits - 1))

/-- Signed maximum of a width. -/
def intMax (w : IntW) : Int := ipow 2 (w.bits - 1) - 1

/-- Unsigned maximum of a width. -/
def uintMax (w : IntW) : Int := ipow 2 w.bits - 1

/-- Embedding of reflect.Value.OverflowInt. -/
def overflowInt (w : IntW) (i : Int) : Bool := i < intMin w || i > intMax w

/-- Embedding of reflect.Value.OverflowUint (the parsed value is
non-negative by construction). -/
def overflowUint (w : IntW) (i : Int) : Bool := i < 0 || i > uintMax w

/-- Embedding of reflect.Value.OverflowFloat. -/
def overflowFloat (w : FloatW) (d : Dec10) : Bool := dec10Over w d

/-- Embedding of setFieldValue restricted to the kinds in `Ty`.  The
branches mirror the source: scalar signed/unsigned integers parse at 64
bits and then run the reflect overflow check at the destination width;
scalar floats parse at 64 bits and then run the overflow check; the
pointer-to-scalar table parses directly at the destination width (so an
unfitting literal surfaces as the strconv range error); bool accepts
case-insensitive true/false only. -/
def setFieldValue (b : Options) (ty : Ty) (s : String) : Except String Val :=
  match ty with
  | .tStringList => .ok (.vStringList (split s b.listSep))
  | .tBool =>
    if toUpperStr s = "TRUE" then .ok (.vBool true)
    else if toUpperStr s = "FALSE" then .ok (.vBool false)
    else .error ("string " ++ quoted s ++ " is not a valid boolean value")
  | .tInt true w =>
    match goParseInt s 64 with
    | .error e => .error e.msg
    | .ok i => if overflowInt w i then .error "overflow error" else .ok (.vInt i)
  | .tInt false w =>
    match goParseUint s 64 with
    | .error e => .error e.msg
    | .ok u => if overflowUint w u then .error "overflow error" else .ok (.vInt u)
  | .tFloat w =>
    match goParseFloat s .f64 with
    | .error e => .error e.msg
    | .ok q => if overflowFloat w q then .error "overflow error" else .ok (.vFloat q)
  | .tString => .ok (.vString s)
  | .tPtr (.pInt true w) =>
    match goParseInt s w.bits with
    | .error e => .error e.msg
    | .ok i => .ok (.vPtr (some (.vInt i)))
  | .tPtr (.pInt false w) =>
    match goParseUint s w.bits with
    | .error e => .error e.msg
    | .ok u => .ok (.vPtr (some (.vInt u)))
  | .tPtr (.pFloat w) =>
    match goParseFloat s w with
    | .error e => .error e.msg
    | .ok q => .ok (.vPtr (some (.vFloat q)))
  | .tPtr .pString => .ok (.vPtr (some (.vString s)))
  | .tPtr .pBool =>
    if toUpperStr s = "TRUE" then .ok (.vPtr (some (.vBool true)))
    else if toUpperStr s = "FALSE" then .ok (.vPtr (some (.vBool false)))
    else .error ("string " ++ quoted s ++ " is not a valid boolean value")

/-! ## Tag validation -/

/-- Embedding of the TagSyntaxError record; its Error() method returns the
private msg field. -/
structure TagSyntaxError where
  FieldName : String
  TagKey : String
  TagValue : String
  msg : String
deriving DecidableEq

/-- Embedding of the per-field body of validateCfgTags: the sequence of
tag legality checks, in source order, first violation wins. -/
def validateField (tagKey : String) (f : FieldSpec) : Option TagSyntaxError :=
  match f.tag with
  | none => none
  | some tagValue =>
    let mk : String → Option TagSyntaxError :=
      fun m => some ⟨f.name, tagKey, tagValue, m⟩
    if !f.isPublic then mk "non-public fields may not have the tag set"
    else
      let envVarName := getTagEnvVarName tagValue
      if envVarName = "" then mk "tag does not have the name attribute set"
      else if envVarName = ">" && (getTagAttribute tagValue .aDefault).isSome then
        mk "the \"default\" attribute is not allowed on \">\" nested config fields"
      else if envVarName = "-" && (getTagAttribute tagValue .aRequired).isSome then
        mk "the \"required\" attribute is not allowed on \"-\" fields"
      else if (getTagAttribute tagValue .aUnmarshalJSON).isSome && !f.jsonOK then
        mk "field type does not support \"unmarshalJSON\" tag attribute"
      else if envVarName ≠ ">" && (getTagAttribute tagValue .aPfx).isSome then
        mk "the \"prefix\" attribute is only allowed on \">\" nested config fields"
      else
        match (getTagAttributeNames tagValue).find?
            (fun a => !(allTagAttr.map TagAttr.str).contains a && a ≠ "") with
        | some a => mk ("tag value contains non-existent attribute " ++ quoted a)
        | none =>
          match allTagAttr.findSome? (fun attr =>
            if (getTagAttribute tagValue attr).isSome then
              if attr.hasValue && !containsStr tagValue (attr.str ++ "=") then
                some ("the " ++ quoted attr.str ++ " attribute requires a value")
              else if !attr.hasValue && containsStr tagValue (attr.str ++ "=") then
                some ("the " ++ quoted attr.str ++ " attribute may not have a value")
              else none
            else none) with
          | some m => mk m
          | none => none

/-- Embedding of validateCfgTags: scan the fields in declaration order and
return the first field's violation. -/
def validateCfgTags (tagKey : String) : List FieldSpec → Option TagSyntaxError
  | [] => none
  | f :: fs =>
    match validateField tagKey f with
    | some e => some e
    | none => validateCfgTags tagKey fs

/-! ## Required check -/

/-- Embedding of checkRequired's collection loop.  Note that both the
membership test and the collected entry use the Go field NAME
(`f.name`), not the tag's env var key — setProps is keyed by field name in
fieldLoop, and the missing list records fieldName. -/
def missingRequired (setProps : List String) : List FieldSpec → List String
  | [] => []
  | f :: fs =>
    let rest := missingRequired setProps fs
    match f.tag with
    | none => rest
    | some tagValue =>
      if getTagEnvVarName tagValue = "-" then rest
      else if (getTagAttribute tagValue .aRequired).isSome && !setProps.contains f.name then
        f.name :: rest
      else rest

/-- Embedding of checkRequired: none, a singular message, or a plural
comma-joined message. -/
def checkRequired (setProps : List String) (fs : List FieldSpec) : Option String :=
  match missingRequired setProps fs with
  | [] => none
  | [k] => some ("missing required var " ++ quoted k)
  | ks => some ("missing required vars: " ++ joinComma ks)

/-! ## The build pipeline -/

/-- The external key/value source (os.LookupEnv): the sole read interface
of the external collaborator. -/
def Env : Type := String → Option String

/-- A build-level error: an ordinary error value, or a runtime fault
(a Go panic) that has not yet reached the recovery boundary. -/
inductive BErr where
  | err (msg : String)
  | fault (desc : String)

/-- A config type's shape: its fields and its optional CfgBuildInit /
CfgBuildValidate hooks (capability interfaces on the config type; a hook
reads and rewrites the whole value list, mirroring a method that mutates
the struct).  Nested sub-configs are modelled without hooks of their own;
no claim involves a nested hook. -/
structure Shape where
  fields : List FieldSpec
  initHook : Option (List Val → Except String (List Val))
  valHook : Option (List Val → Except String (List Val))

/-- What a (possibly nested) build runs against: a struct shape, or a
non-struct type — the source reaches the latter when a ">"-tagged field
has a non-struct type, and reflect's NumField then panics inside the
nested Build. -/
inductive Target where
  | strct (sh : Shape)
  | nonStruct (typeName : String)

/-- Rough Go type name of a scalar kind, used only in the NumField fault
description. -/
def tyName : Ty → String
  | .tBool => "bool"
  | .tString => "string"
  | .tStringList => "[]string"
  | .tInt true .w8 => "int8"
  | .tInt true .w16 => "int16"
  | .tInt true .w32 => "int32"
  | .tInt true .w64 => "int64"
  | .tInt false .w8 => "uint8"
  | .tInt false .w16 => "uint16"
  | .tInt false .w32 => "uint32"
  | .tInt false .w64 => "uint64"
  | .tFloat .f32 => "float32"
  | .tFloat .f64 => "float64"
  | .tPtr _ => "ptr"

/-- The env var lookup of the resolution step.  Modelled from the spec:
the fallback retry (second branch) implements "if prefixFallbackEnabled
and the prefixed lookup misses, retry with the bare key"; the source
builder here only ever performs os.LookupEnv(b.prefix + envVarName), which
is the `prefixFallback = false` instance. -/
def lookupEnvVar (env : Env) (fallback : Bool) (pfx key : String) : Option String :=
  match env (pfx ++ key) with
  | some v => some v
  | none => if fallback then env key else none

/-- The derived builder for a nested config field (source: the `cb`
literal in fieldLoop): the prefix comes from the field's prefix attribute
alone, the separators / tag key / list policies are inherited, and the
private throwPanics field is not copied, so a nested build always recovers
its own panics. -/
def childOpts (b : Options) (p : String) : Options :=
  { b with pfx := p, throwPanics := false }

/-- The value assigned to the parent field from a completed nested build,
by value or by pointer according to the field's type. -/
def assignNested (isPtr : Bool) (subVals : List Val) : Val :=
  if isPtr then .vPtr (some (.vStruct subVals)) else .vStruct subVals

/-- Coercion of a resolved string into a field, as fieldLoop calls
setFieldValue.  For a nested-struct field reached with a plain key the
source falls through setFieldValue's dispatch: a struct value hits the
unsupported type/kind default case; a pointer to a struct hits the
reflect.Pointer case, matches no entry of the pointee table, and silently
succeeds without assigning (the current value is kept). -/
def coerceField (b : Options) (f : FieldSpec) (v : Val) (s : String) : Except String Val :=
  match f with
  | .plain _ _ _ _ ty => setFieldValue b ty s
  | .nested _ _ _ _ isPtr _ =>
    if isPtr then .ok v
    else .error "unsupported type/kind \"struct/struct\""

/-- The panic-recovery boundary at the top of Build (the deferred recover:
installed only when the private throwPanics flag is unset, which is the
case for every public entry point): a fault becomes an ordinary error with
the "builder panic:  " prefix. -/
def wrapPanic (b : Options) (r : List Val × List String × Option BErr) :
    List Val × List String × Option BErr :=
  match r with
  | (vs, sp, some (.fault d)) =>
    if b.throwPanics then (vs, sp, some (.fault d))
    else (vs, sp, some (.err ("builder panic:  " ++ d)))
  | r => r

mutual

/-- Embedding of Builder.Build.  Returns the (possibly partially mutated)
value list, the setProps list, and the error slot.  The Nat argument is
recursion fuel for the nested-build recursion (the Go recursion depth is
bounded by the struct nesting depth); running out of fuel is modelled as a
fault, so it too is caught at the boundary. -/
def Build (fuel : Nat) (b : Options) (t : Target) (env : Env) :
    List Val × List String × Option BErr :=
  match fuel with
  | 0 => wrapPanic b ([], [], some (.fault "out of fuel"))
  | n + 1 => wrapPanic b (buildInner n b t env)

/-- Embedding of the Build pipeline inside the recovery boundary:
instantiate a zero instance, validate tags, run the init hook, apply
defaults, make setProps fresh, resolve env vars, check required fields,
run the validate hook.  Each stage returns the current instance with the
first error. -/
def buildInner (fuel : Nat) (b : Options) (t : Target) (env : Env) :
    List Val × List String × Option BErr :=
  match fuel with
  | 0 => ([], [], some (.fault "out of fuel"))
  | n + 1 =>
    match t with
    | .nonStruct typeName =>
      ([], [], some (.fault ("reflect: NumField of non-struct type " ++ typeName)))
    | .strct sh =>
      let vs0 := zeroFields sh.fields
      match validateCfgTags b.effTagKey sh.fields with
      | some e => (vs0, [], some (.err e.msg))
      | none =>
        match (match sh.initHook with
               | none => Except.ok vs0
               | some h => h vs0) with
        | .error m => (vs0, [], some (.err m))
        | .ok vs1 =>
          match fieldLoop n b true env sh.fields vs1 with
          | (vs2, _, some e) => (vs2, [], some e)
          | (vs2, _, none) =>
            match fieldLoop n b false env sh.fields vs2 with
            | (vs3, sp, some e) => (vs3, sp, some e)
            | (vs3, sp, none) =>
              match checkRequired sp sh.fields with
              | some m => (vs3, sp, some (.err m))
              | none =>
                match sh.valHook with
                | none => (vs3, sp, none)
                | some h =>
                  match h vs3 with
                  | .error m => (vs3, sp, some (.err m))
                  | .ok vs4 => (vs4, sp, none)

/-- Embedding of fieldLoop: process the fields in declaration order in
lockstep with their values, accumulating the setProps names, stopping at
the first error and leaving the remaining values untouched. -/
def fieldLoop (fuel : Nat) (b : Options) (setDefault : Bool) (env : Env) :
    List FieldSpec → List Val → List Val × List String × Option BErr
  | fs, vs =>
    match fuel with
    | 0 => (vs, [], some (.fault "out of fuel"))
    | n + 1 =>
      match fs, vs with
      | [], rest => (rest, [], none)
      | _ :: _, [] => ([], [], none)
      | f :: fs, v :: vs =>
        match procField n b setDefault env f v with
        | (v1, ns, some e) => (v1 :: vs, ns, some e)
        | (v1, ns, none) =>
          match fieldLoop n b setDefault env fs vs with
          | (vs1, ns1, e1) => (v1 :: vs1, ns ++ ns1, e1)

/-- Embedding of one iteration of fieldLoop's body for one field: skip
untagged fields; skip "-" keys during env resolution; during default
application skip fields without a default attribute; recurse into ">"
nested fields (assigning only when the sub-build set at least one
property); otherwise resolve a string (the default literal, or the env
lookup) and coerce it into the field, recording the field name in
setProps on an env hit. -/
def procField (fuel : Nat) (b : Options) (setDefault : Bool) (env : Env)
    (f : FieldSpec) (v : Val) : Val × List String × Option BErr :=
  match fuel with
  | 0 => (v, [], some (.fault "out of fuel"))
  | n + 1 =>
    match f.tag with
    | none => (v, [], none)
    | some tagValue =>
      let envVarName := getTagEnvVarName tagValue
      if !setDefault && envVarName = "-" then (v, [], none)
      else if setDefault && !(getTagAttribute tagValue .aDefault).isSome then (v, [], none)
      else if envVarName = ">" then
        match f with
        | .plain _ _ _ _ ty =>
          match Build n (childOpts b ((getTagAttribute tagValue .aPfx).getD "")) (.nonStruct (tyName ty)) env with
          | (_, _, some e) => (v, [], some e)
          | (_, _, none) => (v, [], none)
        | .nested _ _ _ _ isPtr sub =>
          match Build n (childOpts b ((getTagAttribute tagValue .aPfx).getD "")) (.strct ⟨sub, none, none⟩) env with
          | (_, _, some e) => (v, [], some e)
          | (subVals, subProps, none) =>
            if subProps.length > 0 then
              if setDefault then
                -- b.setProps is still nil during setDefaults, so the Go write
                -- b.setProps[fieldName] = true would panic; the path is
                -- unreachable behind validateCfgTags (default is illegal on ">").
                (assignNested isPtr subVals, [], some (.fault "assignment to entry in nil map"))
              else (assignNested isPtr subVals, [f.name], none)
            else (v, [], none)
      else
        match (if setDefault then some ((getTagAttribute tagValue .aDefault).getD "")
               else lookupEnvVar env b.prefixFallback b.pfx envVarName) with
        | none => (v, [], none)
        | some valStr =>
          if (getTagAttribute tagValue .aUnmarshalJSON).isSome then
            match b.jsonDec valStr v with
            | .error m => (v, [], some (.err m))
            | .ok v1 => (v1, if setDefault then [] else [f.name], none)
          else
            match coerceField b f v valStr with
            | .error m =>
              if setDefault then
                (v, [], some (.err ("error setting default value for " ++
                  quoted (b.pfx ++ envVarName) ++ " (" ++ m ++ ")")))
              else
                (v, [], some (.err ("error reading " ++
                  quoted (b.pfx ++ envVarName) ++ " (" ++ m ++ ")")))
            | .ok v1 => (v1, if setDefault then [] else [f.name], none)

end

/-- Embedding of setDefaults: the fieldLoop pass with setDefault. -/
def setDefaults (fuel : Nat) (b : Options) (env : Env) (fs : List FieldSpec) (vs : List Val) :
    List Val × List String × Option BErr :=
  fieldLoop fuel b true env fs vs

/-- Embedding of readEnvVars: the fieldLoop pass resolving the external
source. -/
def readEnvVars (fuel : Nat) (b : Options) (env : Env) (fs : List FieldSpec) (vs : List Val) :
    List Val × List String × Option BErr :=
  fieldLoop fuel b false env fs vs

/-! ## Helper lemmas -/

/-- dropWhile never leaves a satisfying head. -/
theorem dropWhile_head_not (p : Char → Bool) :
    ∀ (l : List Char) x xs, List.dropWhile p l = x :: xs → p x = false := by
  intro l
  induction l with
  | nil => intro x xs h; cases h
  | cons c cs ih =>
    intro x xs h
    by_cases hc : p c
    · rw [List.dropWhile_cons_of_pos hc] at h
      exact ih x xs h
    · rw [List.dropWhile_cons_of_neg hc] at h
      cases h
      simpa using hc

/-- dropWhile is idempotent. -/
theorem dropWhile_dropWhile (p : Char → Bool) (l : List Char) :
    List.dropWhile p (List.dropWhile p l) = List.dropWhile p l := by
  cases h : List.dropWhile p l with
  | nil => rfl
  | cons x xs =>
    have hx := dropWhile_head_not p l x xs h
    rw [List.dropWhile_cons_of_neg (by simp [hx])]

/-- dropWhile returns a suffix. -/
theorem dropWhile_is_suffix (p : Char → Bool) :
    ∀ (l : List Char), ∃ t, t ++ List.dropWhile p l = l := by
  intro l
  induction l with
  | nil => exact ⟨[], rfl⟩
  | cons c cs ih =>
    by_cases hc : p c
    · obtain ⟨t, ht⟩ := ih
      exact ⟨c :: t, by rw [List.dropWhile_cons_of_pos hc]; simp [ht]⟩
    · exact ⟨[], by rw [List.dropWhile_cons_of_neg hc]; rfl⟩

/-- trimSpace is idempotent (every trimmed element stays fixed). -/
theorem trimSpace_idem (s : String) : trimSpace (trimSpace s) = trimSpace s := by
  unfold trimSpace
  cases s with
  | mk l =>
    simp only []
    set a := List.dropWhile isSpc l with ha
    set c := List.dropWhile isSpc a.reverse with hc
    have hstep1 : List.dropWhile isSpc c.reverse = c.reverse := by
      cases hcr : c.reverse with
      | nil => rfl
      | cons x xs =>
        obtain ⟨t, ht⟩ := dropWhile_is_suffix isSpc a.reverse
        have haeq : a = c.reverse ++ t.reverse := by
          have := congrArg List.reverse ht
          simpa [hc] using this.symm
        have hx : isSpc x = false := by
          apply dropWhile_head_not isSpc l x (xs ++ t.reverse)
          rw [← ha, haeq, hcr]
          simp
        rw [List.dropWhile_cons_of_neg (by simp [hx])]
    have hstep2 : List.dropWhile isSpc c.reverse.reverse = c := by
      rw [List.reverse_reverse, hc, dropWhile_dropWhile]
    rw [hstep1, hstep2]

/-- A panic-wrapped result is never an ordinary success unless the inner
result was. -/
theorem wrapPanic_ok (b : Options) (r : List Val × List String × Option BErr)
    (vs : List Val) (sp : List String)
    (h : wrapPanic b r = (vs, sp, none)) : r = (vs, sp, none) := by
  unfold wrapPanic at h
  match r with
  | (vs1, sp1, none) => exact h
  | (vs1, sp1, some (.err m)) => simp at h
  | (vs1, sp1, some (.fault d)) =>
    by_cases hp : b.throwPanics <;> simp [hp] at h

/-- fieldLoop preserves the length of the value list on success. -/
theorem fieldLoop_ok_length (b : Options) (sd : Bool) (env : Env) :
    ∀ (fs : List FieldSpec) (fuel : Nat) (vs vs1 : List Val) (ns : List String),
      fieldLoop fuel b sd env fs vs = (vs1, ns, none) → vs1.length = vs.length := by
  intro fs
  induction fs with
  | nil =>
    intro fuel vs vs1 ns h
    cases fuel with
    | zero => simp [fieldLoop] at h
    | succ n => simp [fieldLoop] at h; simp [h.1]
  | cons f fs ih =>
    intro fuel vs vs1 ns h
    cases fuel with
    | zero => simp [fieldLoop] at h
    | succ n =>
      cases vs with
      | nil => simp [fieldLoop] at h; simp [h.1]
      | cons v vs =>
        rw [fieldLoop] at h
        simp only [] at h
        cases hpf : procField n b sd env f v with
        | mk v1 rest =>
          cases rest with
          | mk ns0 e0 =>
            cases e0 with
            | some e => rw [hpf] at h; simp at h
            | none =>
              rw [hpf] at h
              cases hfl : fieldLoop n b sd env fs vs with
              | mk vs2 rest2 =>
                cases rest2 with
                | mk ns2 e2 =>
                  rw [hfl] at h
                  simp at h
                  obtain ⟨hv, hn, he⟩ := h
                  subst he
                  have := ih n vs vs2 ns2 hfl
                  simp [← hv, this]

/-- A zero instance has one value per field. -/
theorem zeroFields_length : ∀ (fs : List FieldSpec), (zeroFields fs).length = fs.length := by
  intro fs
  induction fs with
  | nil => rfl
  | cons f fs ih => simp [zeroFields, ih]

/-- On success, the i-th output value of fieldLoop is the output of
procField (at some positive fuel) on the i-th field and i-th input
value. -/
theorem fieldLoop_ok_get (b : Options) (sd : Bool) (env : Env) :
    ∀ (fs : List FieldSpec) (fuel : Nat) (vs vs1 : List Val) (ns : List String)
      (i : Nat) (f : FieldSpec) (v : Val),
      fieldLoop fuel b sd env fs vs = (vs1, ns, none) →
      fs[i]? = some f → vs[i]? = some v →
      ∃ m v1 ns0, procField (m + 1) b sd env f v = (v1, ns0, none) ∧ vs1[i]? = some v1 := by
  intro fs
  induction fs with
  | nil => intro fuel vs vs1 ns i f v h hf hv; simp at hf
  | cons f0 fs ih =>
    intro fuel vs vs1 ns i f v h hf hv
    cases fuel with
    | zero => simp [fieldLoop] at h
    | succ n =>
      cases vs with
      | nil => simp at hv
      | cons v0 vs =>
        rw [fieldLoop] at h
        simp only [] at h
        cases hpf : procField n b sd env f0 v0 with
        | mk w1 rest =>
          cases rest with
          | mk ns0 e0 =>
            cases e0 with
            | some e => rw [hpf] at h; simp at h
            | none =>
              rw [hpf] at h
              cases hfl : fieldLoop n b sd env fs vs with
              | mk vs2 rest2 =>
                cases rest2 with
                | mk ns2 e2 =>
                  rw [hfl] at h
                  simp at h
                  obtain ⟨hvs, hns, he⟩ := h
                  subst he
                  cases i with
                  | zero =>
                    simp at hf hv
                    subst hf; subst hv
                    cases n with
                    | zero => simp [procField] at hpf
                    | succ m =>
                      exact ⟨m, w1, ns0, hpf, by simp [← hvs]⟩
                  | succ j =>
                    simp at hf hv
                    obtain ⟨m, v1, ns1, hp, hg⟩ := ih n vs vs2 ns2 j f v hfl hf hv
                    exact ⟨m, v1, ns1, hp, by simp [← hvs, hg]⟩

/-- The env-resolution behaviour of procField on a plain tagged field with
an ordinary key: miss keeps the value, hit coerces and records the field
name. -/
theorem procField_plain_env (n : Nat) (b : Options) (env : Env)
    (nm : String) (pub jok : Bool) (tv : String) (ty : Ty) (v : Val)
    (hk1 : getTagEnvVarName tv ≠ "-") (hk2 : getTagEnvVarName tv ≠ ">")
    (hjson : (getTagAttribute tv .aUnmarshalJSON).isSome = false) :
    procField (n + 1) b false env (.plain nm pub jok (some tv) ty) v =
      match lookupEnvVar env b.prefixFallback b.pfx (getTagEnvVarName tv) with
      | none => (v, [], none)
      | some valStr =>
        match setFieldValue b ty valStr with
        | .error m =>
          (v, [], some (.err ("error reading " ++
            quoted (b.pfx ++ getTagEnvVarName tv) ++ " (" ++ m ++ ")")))
        | .ok v1 => (v1, [nm], none) := by
  rw [procField]
  simp only [FieldSpec.tag, FieldSpec.name]
  simp [hk1, hk2, hjson, coerceField]

/-- The hit case of procField_plain_env, with the lookup already
resolved. -/
theorem procField_plain_env_hit (n : Nat) (b : Options) (env : Env)
    (nm : String) (pub jok : Bool) (tv : String) (ty : Ty) (v : Val) (w : String)
    (hk1 : getTagEnvVarName tv ≠ "-") (hk2 : getTagEnvVarName tv ≠ ">")
    (hjson : (getTagAttribute tv .aUnmarshalJSON).isSome = false)
    (henv : lookupEnvVar env b.prefixFallback b.pfx (getTagEnvVarName tv) = some w) :
    procField (n + 1) b false env (.plain nm pub jok (some tv) ty) v =
      match setFieldValue b ty w with
      | .error m =>
        (v, [], some (.err ("error reading " ++
          quoted (b.pfx ++ getTagEnvVarName tv) ++ " (" ++ m ++ ")")))
      | .ok v1 => (v1, [nm], none) := by
  rw [procField_plain_env n b env nm pub jok tv ty v hk1 hk2 hjson, henv]

/-- First success in an ordered list of rule outcomes. -/
def firstSome : List (Option String) → Option String
  | [] => none
  | o :: rest =>
    match o with
    | some a => some a
    | none => firstSome rest

/-- Rule 1: the tag may only sit on a public field. -/
def ruleNonPublic (f : FieldSpec) : Option String :=
  if !f.isPublic then some "non-public fields may not have the tag set" else none

/-- Rule 2: the key must not be empty. -/
def ruleEmptyKey (tv : String) : Option String :=
  if getTagEnvVarName tv = "" then some "tag does not have the name attribute set" else none

/-- Rule 3: default is illegal on a ">" key. -/
def ruleDefaultOnNested (tv : String) : Option String :=
  if getTagEnvVarName tv = ">" && (getTagAttribute tv .aDefault).isSome then
    some "the \"default\" attribute is not allowed on \">\" nested config fields"
  else none

/-- Rule 4: required is illegal on a "-" key. -/
def ruleRequiredOnDash (tv : String) : Option String :=
  if getTagEnvVarName tv = "-" && (getTagAttribute tv .aRequired).isSome then
    some "the \"required\" attribute is not allowed on \"-\" fields"
  else none

/-- Rule 5: unmarshalJSON needs a type passing the trial decode. -/
def ruleUnmarshalSupport (f : FieldSpec) (tv : String) : Option String :=
  if (getTagAttribute tv .aUnmarshalJSON).isSome && !f.jsonOK then
    some "field type does not support \"unmarshalJSON\" tag attribute"
  else none

/-- Rule 6: prefix is legal only on a ">" key. -/
def rulePfxOnlyNested (tv : String) : Option String :=
  if getTagEnvVarName tv ≠ ">" && (getTagAttribute tv .aPfx).isSome then
    some "the \"prefix\" attribute is only allowed on \">\" nested config fields"
  else none

/-- Rule 7 as the source implements it: the first NON-EMPTY attribute name
outside the four known names (empty names are tolerated). -/
def ruleUnknownAttr (tv : String) : Option String :=
  ((getTagAttributeNames tv).find?
      (fun a => !(allTagAttr.map TagAttr.str).contains a && a ≠ "")).map
    (fun a => "tag value contains non-existent attribute " ++ quoted a)

/-- Rule 8 as the source implements it: for each of the four attribute
names that getTagAttribute finds anywhere among the comma segments
(the key segment included), whether it "carries a value" is decided by a
substring search for name= over the whole raw tag. -/
def ruleAttrValues (tv : String) : Option String :=
  allTagAttr.findSome? fun attr =>
    if (getTagAttribute tv attr).isSome then
      if attr.hasValue && !containsStr tv (attr.str ++ "=") then
        some ("the " ++ quoted attr.str ++ " attribute requires a value")
      else if !attr.hasValue && containsStr tv (attr.str ++ "=") then
        some ("the " ++ quoted attr.str ++ " attribute may not have a value")
      else none
    else none

/-- The amended form of claim C3's rule list: rules 1-6 as claimed; rule 7
fires only on non-empty unknown attribute names; rule 8 uses the source's
substring detection of attribute values.  The first violated rule's error
is returned, carrying the tag key name, the raw tag value, the field name
and the message. -/
def validateFieldAmended (tagKey : String) (f : FieldSpec) : Option TagSyntaxError :=
  match f.tag with
  | none => none
  | some tv =>
    (firstSome
      [ruleNonPublic f, ruleEmptyKey tv, ruleDefaultOnNested tv, ruleRequiredOnDash tv,
       ruleUnmarshalSupport f tv, rulePfxOnlyNested tv, ruleUnknownAttr tv,
       ruleAttrValues tv]).map
      fun m => ⟨f.name, tagKey, tv, m⟩

/-- The comma segments after the key (the spec's parseAttributes). -/
def claimAttrSegs (tv : String) : List String := (strSplit tv ",").drop 1

/-- An attribute segment's name: the part before the first "=". -/
def segName (seg : String) : String := (strSplit seg "=").headD ""

/-- Whether an attribute segment carries a value (has an "="). -/
def segHasValue (seg : String) : Bool := decide ((strSplit seg "=").length ≥ 2)

/-- Whether the attributes after the key include one with this name. -/
def claimHasAttr (tv nm : String) : Bool :=
  (claimAttrSegs tv).any fun seg => segName seg = nm

/-- Modelled from the spec: claim C3's rule list taken literally — the
attributes are the comma segments after the key, rule 7 fires on any
attribute name outside the four known ones, and rule 8 judges each
attribute's value by its own segment.  Defined only to compare the claim's
wording with the source's validateField. -/
def validateFieldClaim (tagKey : String) (f : FieldSpec) : Option TagSyntaxError :=
  match f.tag with
  | none => none
  | some tv =>
    (firstSome
      [ruleNonPublic f, ruleEmptyKey tv,
       (if getTagEnvVarName tv = ">" && claimHasAttr tv "default" then
          some "the \"default\" attribute is not allowed on \">\" nested config fields"
        else none),
       (if getTagEnvVarName tv = "-" && claimHasAttr tv "required" then
          some "the \"required\" attribute is not allowed on \"-\" fields"
        else none),
       (if claimHasAttr tv "unmarshalJSON" && !f.jsonOK then
          some "field type does not support \"unmarshalJSON\" tag attribute"
        else none),
       (if getTagEnvVarName tv ≠ ">" && claimHasAttr tv "prefix" then
          some "the \"prefix\" attribute is only allowed on \">\" nested config fields"
        else none),
       ((claimAttrSegs tv).find?
           (fun seg => !(allTagAttr.map TagAttr.str).contains (segName seg))).map
         (fun seg => "tag value contains non-existent attribute " ++ quoted (segName seg)),
       (claimAttrSegs tv).findSome? fun seg =>
         if (segName seg = "default" || segName seg = "prefix") && !segHasValue seg then
           some ("the " ++ quoted (segName seg) ++ " attribute requires a value")
         else if (segName seg = "required" || segName seg = "unmarshalJSON") && segHasValue seg then
           some ("the " ++ quoted (segName seg) ++ " attribute may not have a value")
         else none]).map
      fun m => ⟨f.name, tagKey, tv, m⟩

/-- The zero-value Builder as every public entry point constructs it:
 tag
key, separators and prefix defaulted, throwPanics and the fallback policy
unset.  The jsonDec entry stands for the external json decoder; no theorem
below exercises it (none of the fields involved carry the unmarshalJSON
attribute). -/
def defaultBuilder : Options := ⟨"", "", "", false, false, fun _ v => .ok v⟩

/-! ## Claim theorems -/

/-- Claim C1 (code bug): a required, undefaulted, externally absent field
must make Build fail with a missing-required message naming the field's
external key — the repo's own test asserts `missing required var
"MY_UINT"` for the field `MyUInt` tagged `MY_UINT,required`.  The source's
checkRequired collects `fieldName` (the Go field name) rather than the tag
key, so the message names `MyUInt` instead of `MY_UINT`. -/
theorem checkRequired_reports_field_name_bug :
    Build 10 defaultBuilder
      (.strct ⟨[.plain "MyUInt" true true (some "MY_UINT,required") (.tInt false .w64)],
        none, none⟩)
      (fun _ => none) =
      ([.vInt 0], [], some (.err ("missing required var " ++ quoted "MyUInt"))) ∧
    ("missing required var " ++ quoted "MyUInt") ≠
      ("missing required var " ++ quoted "MY_UINT") := by
  exact ⟨by rfl, by decide⟩

/-- Claim C9: coercing the empty string (or a whitespace-only string) into
a []string field yields a one-element list holding the empty string, not
an empty list — both directly and through a Build with an empty default
literal. -/
theorem stringList_empty_singleton :
    split "" "," = [""] ∧ split "   " "," = [""] ∧
    setFieldValue defaultBuilder .tStringList "" = .ok (.vStringList [""]) ∧
    Build 10 defaultBuilder
      (.strct ⟨[.plain "MyList" true true (some "MY_LIST,default=") .tStringList],
        none, none⟩)
      (fun _ => none) = ([.vStringList [""]], [], none) := by
  exact ⟨rfl, rfl, rfl, rfl⟩

/-- Claim C10: a field without the configured tag is skipped entirely by
the default pass, the env pass and the required check: its value is
untouched, it records no setProps entry, and it contributes nothing to the
missing-required list — for any field type or visibility. -/
theorem untagged_field_skipped (n : Nat) (b : Options) (sd : Bool) (env : Env)
    (f : FieldSpec) (v : Val) (sp : List String) (fs : List FieldSpec)
    (h : f.tag = none) :
    procField (n + 1) b sd env f v = (v, [], none) ∧
    missingRequired sp (f :: fs) = missingRequired sp fs := by
  constructor
  · rw [procField, h]
  · rw [missingRequired]
    simp [h]

/-- Claim C10 witness. -/
theorem untagged_field_skipped_witness :
    procField 1 defaultBuilder false (fun _ => none)
        (.plain "NotSet" true true none .tString) (.vString "keep") =
      (.vString "keep", [], none) ∧
    missingRequired [] [.plain "NotSet" true true none .tString] = missingRequired [] [] :=
  untagged_field_skipped 0 defaultBuilder false (fun _ => none)
    (.plain "NotSet" true true none .tString) (.vString "keep") [] [] rfl

/-- Claim C6: during env resolution of a ">" nested field, if the
sub-build records zero set properties the parent field keeps exactly its
prior value (no assignment); if at least one property was set, the nested
result is assigned by value or by pointer according to the field's
type. -/
theorem nested_zero_set_frame (n : Nat) (b : Options) (env : Env)
    (nm : String) (pub jok : Bool) (tv : String) (isPtr : Bool)
    (sub : List FieldSpec) (v : Val) (subVals : List Val) (subProps : List String)
    (hk : getTagEnvVarName tv = ">")
    (hsub : Build n (childOpts b ((getTagAttribute tv .aPfx).getD ""))
        (.strct ⟨sub, none, none⟩) env = (subVals, subProps, none)) :
    (subProps = [] →
      procField (n + 1) b false env (.nested nm pub jok (some tv) isPtr sub) v =
        (v, [], none)) ∧
    (subProps ≠ [] →
      procField (n + 1) b false env (.nested nm pub jok (some tv) isPtr sub) v =
        (assignNested isPtr subVals, [nm], none)) := by
  constructor <;> intro hsp
  · rw [procField]
    simp only [FieldSpec.tag, FieldSpec.name]
    simp [hk, hsub, hsp]
  · rw [procField]
    simp only [FieldSpec.tag, FieldSpec.name]
    simp [hk, hsub, List.length_pos.mpr hsp]

/-- Claim C6 witness: a child config whose only key misses leaves the
parent value alone; one with a hit assigns the struct. -/
theorem nested_zero_set_frame_witness :
    procField 10 defaultBuilder false (fun _ => none)
        (.nested "Child" true true (some ">,prefix=PREFIX_") false
          [.plain "MyInt" true true (some "MY_INT") (.tInt true .w64)])
        (.vString "keep") =
      (.vString "keep", [], none) :=
  (nested_zero_set_frame 9 defaultBuilder (fun _ => none) "Child" true true
      ">,prefix=PREFIX_" false
      [.plain "MyInt" true true (some "MY_INT") (.tInt true .w64)]
      (.vString "keep") [.vInt 0] [] rfl (by rfl)).1 rfl

/-- Claim C5 (the fallback itself is modelled from the spec, see
lookupEnvVar): with the fallback policy enabled, a miss of the prefixed
key followed by a hit of the bare key resolves to the bare value, which is
coerced and assigned and marks the field set. -/
theorem prefixFallback_bare_key_used (n : Nat) (b : Options) (env : Env)
    (nm : String) (pub jok : Bool) (tv : String) (ty : Ty) (v u : Val) (w : String)
    (hfb : b.prefixFallback = true)
    (hk1 : getTagEnvVarName tv ≠ "-") (hk2 : getTagEnvVarName tv ≠ ">")
    (hjson : (getTagAttribute tv .aUnmarshalJSON).isSome = false)
    (hmiss : env (b.pfx ++ getTagEnvVarName tv) = none)
    (hhit : env (getTagEnvVarName tv) = some w)
    (hco : setFieldValue b ty w = .ok u) :
    lookupEnvVar env b.prefixFallback b.pfx (getTagEnvVarName tv) = some w ∧
    procField (n + 1) b false env (.plain nm pub jok (some tv) ty) v = (u, [nm], none) := by
  have hl : lookupEnvVar env b.prefixFallback b.pfx (getTagEnvVarName tv) = some w := by
    unfold lookupEnvVar
    rw [hmiss, hfb]
    simpa using hhit
  refine ⟨hl, ?_⟩
  rw [procField_plain_env n b env nm pub jok tv ty v hk1 hk2 hjson, hl]
  simp [hco]

/-- Claim C5 witness: prefixed key PREFIX_MY_INT absent, bare MY_INT
present. -/
theorem prefixFallback_bare_key_used_witness :
    lookupEnvVar (fun k => if k = "MY_INT" then some "42" else none) true "PREFIX_" "MY_INT" =
      some "42" ∧
    procField 1 ⟨"", "", "PREFIX_", false, true, fun _ v => .ok v⟩ false
        (fun k => if k = "MY_INT" then some "42" else none)
        (.plain "MyInt" true true (some "MY_INT") (.tInt true .w64)) (.vInt 0) =
      (.vInt 42, ["MyInt"], none) :=
  prefixFallback_bare_key_used 0 ⟨"", "", "PREFIX_", false, true, fun _ v => .ok v⟩
    (fun k => if k = "MY_INT" then some "42" else none) "MyInt" true true "MY_INT"
    (.tInt true .w64) (.vInt 0) (.vInt 42) "42" rfl (by decide) (by decide) rfl rfl rfl rfl

/-- Claim C8: a list field splits "a,b,c" into exactly ["a","b","c"] under
the default separator; every element of any coerced list is trimmed of
surrounding whitespace; a non-empty custom separator fully replaces the
default (commas survive inside elements). -/
theorem stringList_split_trim_sep :
    setFieldValue defaultBuilder .tStringList "a,b,c" = .ok (.vStringList ["a", "b", "c"]) ∧
    (∀ s sep x, x ∈ split s sep → trimSpace x = x) ∧
    (∀ s sep, sep ≠ "" → split s sep = (strSplit s sep).map trimSpace) ∧
    split "a,b;c" ";" = ["a,b", "c"] := by
  refine ⟨rfl, ?_, ?_, rfl⟩
  · intro s sep x hx
    unfold split at hx
    simp only [List.mem_map] at hx
    obtain ⟨y, _, hy⟩ := hx
    rw [← hy, trimSpace_idem]
  · intro s sep h
    unfold split
    simp [h]

/-- Claim C8 witness. -/
theorem stringList_split_trim_sep_witness :
    trimSpace "a" = "a" ∧ split "x;y" ";" = (strSplit "x;y" ";").map trimSpace :=
  ⟨stringList_split_trim_sep.2.1 " a ,b" "," "a" (by decide),
   stringList_split_trim_sep.2.2.1 "x;y" ";" (by decide)⟩

/-- Claim C4: with the recovery boundary installed (throwPanics unset, as
for every public caller), Build never returns a fault: whatever the inner
pipeline does, a fault surfaces as an error whose message is
"builder panic:  " followed by the fault description — including a fault
raised inside a nested sub-build, as in the concrete third part (a ">" tag
on an int64 field makes the nested build call NumField on a non-struct
type). -/
theorem build_never_propagates_panic
    (fuel : Nat) (b : Options) (t : Target) (env : Env)
    (hp : b.throwPanics = false) :
    (∀ vs sp d, Build fuel b t env ≠ (vs, sp, some (.fault d))) ∧
    (∀ n vs sp d, fuel = n + 1 → buildInner n b t env = (vs, sp, some (.fault d)) →
      Build fuel b t env = (vs, sp, some (.err ("builder panic:  " ++ d)))) ∧
    Build 10 defaultBuilder
      (.strct ⟨[.plain "Weird" true true (some ">") (.tInt true .w64)], none, none⟩)
      (fun _ => none) =
      ([.vInt 0], [], some (.err "builder panic:  reflect: NumField of non-struct type int64")) := by
  refine ⟨?_, ?_, by rfl⟩
  · intro vs sp d
    cases fuel with
    | zero =>
      rw [Build]
      simp [wrapPanic, hp]
    | succ n =>
      rw [Build]
      unfold wrapPanic
      match hr : buildInner n b t env with
      | (vs1, sp1, none) => simp
      | (vs1, sp1, some (.err m)) => simp
      | (vs1, sp1, some (.fault d1)) => simp [hp]
  · intro n vs sp d hfuel hbi
    subst hfuel
    rw [Build, hbi]
    simp [wrapPanic, hp]

/-- Claim C4 witness: a non-struct build target faults inside the
pipeline and comes back as a builder-panic error. -/
theorem build_never_propagates_panic_witness :
    Build 2 defaultBuilder (.nonStruct "int") (fun _ => none) =
      ([], [], some (.err ("builder panic:  " ++ "reflect: NumField of non-struct type int"))) :=
  (build_never_propagates_panic 2 defaultBuilder (.nonStruct "int") (fun _ => none) rfl).2.1
    1 [] [] "reflect: NumField of non-struct type int" rfl rfl

/-- Claim C7 counterexample: a pointer-to-scalar destination (*int8) with
a literal that parses as an integer but does not fit the width returns the
underlying strconv range error, not the distinct "overflow error" the
claim requires for every destination including the pointer variants. -/
theorem overflow_pointer_counterexample :
    setFieldValue defaultBuilder (.tPtr (.pInt true .w8)) "300" =
      .error "strconv.ParseInt: parsing \"300\": value out of range" ∧
    "strconv.ParseInt: parsing \"300\": value out of range" ≠ "overflow error" := by
  exact ⟨rfl, by decide⟩

/-- A successful ParseInt run pins the syntactic reading. -/
theorem goParseInt_ok_readInt (s : String) (bs : Nat) (i : Int)
    (h : goParseInt s bs = .ok i) : readInt s.data = some i := by
  unfold goParseInt at h
  split at h
  · simp at h
  · rename_i v hsome
    split at h
    · simp at h
    · cases h
      exact hsome

/-- A reading outside the requested width makes ParseInt report a range
error. -/
theorem goParseInt_range (s : String) (bs : Nat) (i : Int)
    (hr : readInt s.data = some i)
    (hc : (decide (i < -(ipow 2 (bs - 1))) || decide (i > ipow 2 (bs - 1) - 1)) = true) :
    goParseInt s bs = .error (.outOfRange "ParseInt" s) := by
  unfold goParseInt
  split
  · rename_i hnone
    rw [hr] at hnone
    cases hnone
  · rename_i v hsome
    rw [hr] at hsome
    injection hsome with hv
    subst hv
    rw [if_pos hc]

/-- A successful ParseUint run pins the digits and their value. -/
theorem goParseUint_ok_digits (s : String) (bs : Nat) (u : Int)
    (h : goParseUint s bs = .ok u) :
    allDigits s.data = true ∧ (digitsToNat s.data : Int) = u := by
  unfold goParseUint at h
  split at h
  · rename_i hd
    refine ⟨hd, ?_⟩
    split at h
    · simp at h
    · simpa using h
  · simp at h

/-- A value above the requested width makes ParseUint report a range
error. -/
theorem goParseUint_range (s : String) (bs : Nat) (u : Int)
    (hd : allDigits s.data = true) (hu : (digitsToNat s.data : Int) = u)
    (hc : u > ipow 2 bs - 1) :
    goParseUint s bs = .error (.outOfRange "ParseUint" s) := by
  unfold goParseUint
  rw [if_pos hd, hu, if_pos hc]

/-- A successful ParseFloat run pins the syntactic reading. -/
theorem readFloat_of_goParseFloat_ok (s : String) (w : FloatW) (d : Dec10)
    (h : goParseFloat s w = .ok d) : readFloat s.data = some d := by
  unfold goParseFloat at h
  split at h
  · simp at h
  · rename_i d1 hsome
    split at h
    · simp at h
    · cases h
      exact hsome

/-- A value above the requested width makes ParseFloat report a range
error. -/
theorem goParseFloat_range (s : String) (w : FloatW) (d : Dec10)
    (hr : readFloat s.data = some d)
    (hc : dec10Over w d = true) :
    goParseFloat s w = .error (.outOfRange "ParseFloat" s) := by
  unfold goParseFloat
  split
  · rename_i hnone
    rw [hr] at hnone
    cases hnone
  · rename_i d1 hsome
    rw [hr] at hsome
    injection hsome with hd
    subst hd
    rw [if_pos hc]

/-- Claim C7 (amended): for the bare scalar kinds a parsed 64-bit value
that overflows the destination width yields the distinct "overflow error"
(never a truncated assignment: any ok value fits the width); the
pointer-to-scalar variants parse directly at the destination width, so an
unfitting literal surfaces as the strconv range error — an error in every
case, never silent truncation. -/
theorem overflow_distinct_error_amended :
    (∀ (b : Options) (w : IntW) (s : String) (i : Int),
      goParseInt s 64 = .ok i → overflowInt w i = true →
      setFieldValue b (.tInt true w) s = .error "overflow error") ∧
    (∀ (b : Options) (w : IntW) (s : String) (u : Int),
      goParseUint s 64 = .ok u → overflowUint w u = true →
      setFieldValue b (.tInt false w) s = .error "overflow error") ∧
    (∀ (b : Options) (w : FloatW) (s : String) (d : Dec10),
      goParseFloat s .f64 = .ok d → overflowFloat w d = true →
      setFieldValue b (.tFloat w) s = .error "overflow error") ∧
    (∀ (b : Options) (w : IntW) (s : String) (v : Val),
      setFieldValue b (.tInt true w) s = .ok v →
      ∃ i, v = .vInt i ∧ overflowInt w i = false) ∧
    (∀ (b : Options) (w : IntW) (s : String) (v : Val),
      setFieldValue b (.tInt false w) s = .ok v →
      ∃ u, v = .vInt u ∧ overflowUint w u = false) ∧
    (∀ (b : Options) (w : IntW) (s : String) (i : Int),
      goParseInt s 64 = .ok i → overflowInt w i = true →
      setFieldValue b (.tPtr (.pInt true w)) s =
        .error (NumErr.outOfRange "ParseInt" s).msg) ∧
    (∀ (b : Options) (w : IntW) (s : String) (u : Int),
      goParseUint s 64 = .ok u → overflowUint w u = true →
      setFieldValue b (.tPtr (.pInt false w)) s =
        .error (NumErr.outOfRange "ParseUint" s).msg) ∧
    (∀ (b : Options) (w : FloatW) (s : String) (d : Dec10),
      goParseFloat s .f64 = .ok d → overflowFloat w d = true →
      setFieldValue b (.tPtr (.pFloat w)) s =
        .error (NumErr.outOfRange "ParseFloat" s).msg) := by
  refine ⟨?_, ?_, ?_, ?_, ?_, ?_, ?_, ?_⟩
  · intro b w s i hp hov
    unfold setFieldValue
    rw [hp]
    simp [hov]
  · intro b w s u hp hov
    unfold setFieldValue
    rw [hp]
    simp [hov]
  · intro b w s d hp hov
    unfold setFieldValue
    rw [hp]
    simp [hov]
  · intro b w s v hok
    unfold setFieldValue at hok
    cases hp : goParseInt s 64 with
    | error e => rw [hp] at hok; simp at hok
    | ok i =>
      rw [hp] at hok
      cases hov : overflowInt w i with
      | true => simp [hov] at hok
      | false =>
        simp [hov] at hok
        exact ⟨i, hok.symm, hov⟩
  · intro b w s v hok
    unfold setFieldValue at hok
    cases hp : goParseUint s 64 with
    | error e => rw [hp] at hok; simp at hok
    | ok u =>
      rw [hp] at hok
      cases hov : overflowUint w u with
      | true => simp [hov] at hok
      | false =>
        simp [hov] at hok
        exact ⟨u, hok.symm, hov⟩
  · intro b w s i hp hov
    have hr := goParseInt_ok_readInt s 64 i hp
    unfold overflowInt intMin intMax at hov
    have hrange := goParseInt_range s w.bits i hr hov
    simp only [setFieldValue, hrange]
  · intro b w s u hp hov
    obtain ⟨hd, hu⟩ := goParseUint_ok_digits s 64 u hp
    have hnn : (0 : Int) ≤ u := by
      rw [← hu]
      exact Int.natCast_nonneg _
    have hgt : u > ipow 2 w.bits - 1 := by
      unfold overflowUint uintMax at hov
      simp only [Bool.or_eq_true, decide_eq_true_eq] at hov
      cases hov with
      | inl hneg => omega
      | inr h => exact h
    have hrange := goParseUint_range s w.bits u hd hu hgt
    simp only [setFieldValue, hrange]
  · intro b w s d hp hov
    have hr := readFloat_of_goParseFloat_ok s .f64 d hp
    unfold overflowFloat at hov
    have hrange := goParseFloat_range s w d hr hov
    simp only [setFieldValue, hrange]

/-- Claim C7 witness: int8 scalar vs pointer behaviour at "300", and the
float32 overflow at "1e39". -/
theorem overflow_distinct_error_amended_witness :
    setFieldValue defaultBuilder (.tInt true .w8) "300" = .error "overflow error" ∧
    setFieldValue defaultBuilder (.tPtr (.pInt true .w8)) "300" =
      .error (NumErr.outOfRange "ParseInt" "300").msg ∧
    setFieldValue defaultBuilder (.tFloat .f32) "1e39" = .error "overflow error" :=
  ⟨overflow_distinct_error_amended.1 defaultBuilder .w8 "300" 300 (by rfl) (by rfl),
   overflow_distinct_error_amended.2.2.2.2.2.1 defaultBuilder .w8 "300" 300 (by rfl) (by rfl),
   overflow_distinct_error_amended.2.2.1 defaultBuilder .f32 "1e39" ⟨ipow 10 39, 0⟩
     (by rfl) (by rfl)⟩

/-- Claim C2: for a tagged field with an ordinary key carrying a default
attribute whose key is also present in the external source, a successful
Build leaves the field at the coercion of the external value — the
conclusion does not mention the default literal at all, so the external
value always wins and the default can never overwrite it (defaults run in
the earlier setDefaults pass and the env pass overwrites).  The hook
hypotheses say the config's optional init hook keeps the field count and
there is no post-validate hook (hooks are arbitrary user code outside the
resolution engine). -/
theorem build_external_overrides_default
    (fuel : Nat) (b : Options) (sh : Shape) (env : Env)
    (i : Nat) (nm : String) (pub jok : Bool) (tv : String) (ty : Ty)
    (vs : List Val) (sp : List String) (w : String)
    (hvh : sh.valHook = none)
    (hinit : ∀ h l r, sh.initHook = some h → h l = .ok r → r.length = l.length)
    (hf : sh.fields[i]? = some (.plain nm pub jok (some tv) ty))
    (hk1 : getTagEnvVarName tv ≠ "-") (hk2 : getTagEnvVarName tv ≠ ">")
    (_hdef : (getTagAttribute tv .aDefault).isSome = true)
    (hjson : (getTagAttribute tv .aUnmarshalJSON).isSome = false)
    (henv : lookupEnvVar env b.prefixFallback b.pfx (getTagEnvVarName tv) = some w)
    (hok : Build fuel b (.strct sh) env = (vs, sp, none)) :
    ∃ u, setFieldValue b ty w = .ok u ∧ vs[i]? = some u := by
  cases fuel with
  | zero =>
    rw [Build] at hok
    have := wrapPanic_ok b _ vs sp hok
    simp at this
  | succ n =>
    rw [Build] at hok
    have hin := wrapPanic_ok b _ vs sp hok
    cases n with
    | zero => rw [buildInner] at hin; simp at hin
    | succ m =>
      rw [buildInner] at hin
      have hi_lt : i < sh.fields.length := (List.getElem?_eq_some_iff.mp hf).1
      split at hin
      · simp at hin
      · rename_i hval
        split at hin
        · simp at hin
        · rename_i vs1 hini
          have hlen1 : vs1.length = sh.fields.length := by
            cases hih : sh.initHook with
            | none =>
              rw [hih] at hini
              simp at hini
              rw [← hini, zeroFields_length]
            | some h =>
              rw [hih] at hini
              rw [hinit h (zeroFields sh.fields) vs1 hih hini, zeroFields_length]
          split at hin
          · simp at hin
          · rename_i vs2 ns2 hd
            have hlen2 : vs2.length = sh.fields.length := by
              rw [fieldLoop_ok_length b true env sh.fields m vs1 vs2 ns2 hd, hlen1]
            split at hin
            · simp at hin
            · rename_i vs3 sp3 he
              split at hin
              · simp at hin
              · rename_i hcr
                rw [hvh] at hin
                simp at hin
                obtain ⟨hvs, hsp⟩ := hin
                have hlt2 : i < vs2.length := by rw [hlen2]; exact hi_lt
                have hv2 : ∃ x, vs2[i]? = some x :=
                  ⟨vs2.get ⟨i, hlt2⟩, List.getElem?_eq_getElem hlt2⟩
                obtain ⟨v2, hv2⟩ := hv2
                obtain ⟨m1, v1, ns0, hpf, hg⟩ :=
                  fieldLoop_ok_get b false env sh.fields m vs2 vs3 sp3 i
                    (.plain nm pub jok (some tv) ty) v2 he hf hv2
                rw [procField_plain_env_hit m1 b env nm pub jok tv ty _ w
                  hk1 hk2 hjson henv] at hpf
                cases hsv : setFieldValue b ty w with
                | error msg => rw [hsv] at hpf; simp at hpf
                | ok u =>
                  rw [hsv] at hpf
                  simp at hpf
                  refine ⟨u, rfl, ?_⟩
                  rw [← hvs, hg, hpf.1]

/-- Claim C2 witness: default 1234 present, env value 42 present, the
field ends at 42. -/
theorem build_external_overrides_default_witness :
    ∃ u, setFieldValue defaultBuilder (.tInt true .w64) "42" = .ok u ∧
      ([Val.vInt 42] : List Val)[0]? = some u :=
  build_external_overrides_default 10 defaultBuilder
    ⟨[.plain "MyInt" true true (some "MY_INT,default=1234") (.tInt true .w64)], none, none⟩
    (fun k => if k = "MY_INT" then some "42" else none) 0 "MyInt" true true
    "MY_INT,default=1234" (.tInt true .w64) [.vInt 42] ["MyInt"] "42"
    rfl (fun h l r hsome _ => by cases hsome) rfl (by decide) (by decide) rfl rfl rfl
    (by rfl)

/-- Claim C3 (amended): per-field tag validation equals the first
violation of the amended ordered rule list (rules 1-6 as claimed, rule 7
restricted to non-empty names, rule 8 by substring detection over the raw
tag), and validation runs before any value resolution: a tag violation
makes Build return the still-zero instance with that error. -/
theorem validateCfgTags_order_amended :
    (∀ tagKey f, validateField tagKey f = validateFieldAmended tagKey f) ∧
    (∀ (fuel : Nat) (b : Options) (sh : Shape) (env : Env) (e : TagSyntaxError),
      validateCfgTags b.effTagKey sh.fields = some e →
      Build (fuel + 2) b (.strct sh) env =
        (zeroFields sh.fields, [], some (.err e.msg))) := by
  constructor
  · intro tagKey f
    unfold validateField validateFieldAmended
    cases htag : f.tag with
    | none => rfl
    | some tv =>
      cases h7 : (getTagAttributeNames tv).find?
          (fun a => !(allTagAttr.map TagAttr.str).contains a && a ≠ "") <;>
      cases h8 : allTagAttr.findSome? (fun attr =>
          if (getTagAttribute tv attr).isSome then
            if attr.hasValue && !containsStr tv (attr.str ++ "=") then
              some ("the " ++ quoted attr.str ++ " attribute requires a value")
            else if !attr.hasValue && containsStr tv (attr.str ++ "=") then
              some ("the " ++ quoted attr.str ++ " attribute may not have a value")
            else none
          else none) <;>
      simp only [firstSome, ruleNonPublic, ruleEmptyKey, ruleDefaultOnNested,
        ruleRequiredOnDash, ruleUnmarshalSupport, rulePfxOnlyNested, ruleUnknownAttr,
        ruleAttrValues, h7, h8] <;>
      (repeat' (split <;> try rfl))
  · intro fuel b sh env e hval
    rw [Build, buildInner, hval]
    simp [wrapPanic]

/-- Claim C3 witness: a tag on a non-public field short-circuits Build at
validation with the rule-1 error and the zero instance. -/
theorem validateCfgTags_order_amended_witness :
    Build 2 defaultBuilder
      (.strct ⟨[.plain "hidden" false true (some "K") .tString], none, none⟩)
      (fun _ => none) =
      (zeroFields [.plain "hidden" false true (some "K") .tString], [],
        some (.err "non-public fields may not have the tag set")) :=
  validateCfgTags_order_amended.2 0 defaultBuilder
    ⟨[.plain "hidden" false true (some "K") .tString], none, none⟩ (fun _ => none)
    ⟨"hidden", "envvar", "K", "non-public fields may not have the tag set"⟩ rfl

/-- Claim C3 counterexample: the field tagged `required=x` (a legal
non-empty key with no attributes at all, since the attribute list is the
segments after the key) violates none of the claim's literal rules — yet
the source's validateField rejects it with a rule-8 error, because
getTagAttribute also scans the key segment and the value check is a
substring search over the whole tag. -/
theorem validateCfgTags_claim_counterexample :
    validateFieldClaim "envvar" (.plain "MyField" true true (some "required=x") .tString) =
      none ∧
    validateField "envvar" (.plain "MyField" true true (some "required=x") .tString) =
      some ⟨"MyField", "envvar", "required=x",
        "the \"required\" attribute may not have a value"⟩ := by
  exact ⟨rfl, rfl⟩

end Cfgbuild
